import Mathlib

/-!
Verification of the GQLify CLI bootstrapper.

The executable surface of the repository is:
  * `src/bin/gqlify.ts` — a commander program registering the single
    subcommand `init` (no arguments, no flags) whose action is `init`;
  * `src/commands/init.ts` — the `init` routine: it resolves the bundled
    template directory `path.resolve(__dirname, '../../../templates/.claude')`,
    checks `fs.pathExists` on `<cwd>/.claude`, and either skips with a warning
    (exit 0) or runs `fs.copy(templateDir, targetDir)` followed by a success
    report (exit 0); any error caught during the try block prints an error
    block to stderr and calls `process.exit(1)`.

The embedding below models the filesystem as an association list from paths
(lists of name components) to entries (file with byte content, directory,
symlink).  `fs.copy` is modelled by `fsCopy`, parameterised by an optional
fault (`some k` = the copy fails after `k` entries were written, covering
permission errors and disk-full; a missing source fails with nothing
written).  Console output is modelled as a list of channel-tagged message
constructors, one per `console.log` / `console.error` call in the source,
in source order.
-/

namespace GQLify

/-- A filesystem path, as a list of name components. -/
abbrev Path := List String

/-- A filesystem entry: a regular file with its byte content, a directory,
or a symbolic link. -/
inductive Entry
  | file : List Nat → Entry
  | dir : Entry
  | symlink : Path → Entry
  deriving DecidableEq

/-- A filesystem: an association list of paths to entries (first binding
wins on lookup). -/
structure FS where
  entries : List (Path × Entry)
  deriving DecidableEq

/-- Look up the entry at a path. -/
def FS.get (fs : FS) (p : Path) : Option Entry :=
  (fs.entries.find? (fun e => decide (e.1 = p))).map (fun e => e.2)

/-- Model of fs-extra `pathExists`: true when any entry (file, directory or
symlink) is present at the path; it never throws. -/
def FS.pathExists (fs : FS) (p : Path) : Bool :=
  (fs.get p).isSome

/-- Well-formedness of a filesystem: every nonempty prefix of a stored
path is itself present (children imply their parent directories), as in a
real filesystem. -/
def FS.wf (fs : FS) : Bool :=
  fs.entries.all (fun e =>
    (List.range e.1.length).all (fun i => fs.pathExists (e.1.take (i + 1))))

/-- Model of node `path.resolve(base, rel)` for the relative segments the
program uses: `..` pops a component, any other segment is appended. -/
def resolvePath (base : Path) : List String → Path
  | [] => base
  | s :: rest =>
    if s = ".." then resolvePath base.dropLast rest
    else resolvePath (base ++ [s]) rest

/-- `const targetDir = path.join(process.cwd(), '.claude')`. -/
def targetDir (cwd : Path) : Path := cwd ++ [".claude"]

/-- `const templateDir = path.resolve(__dirname, '../../../templates/.claude')`. -/
def templateDir (dirname : Path) : Path :=
  resolvePath dirname ["..", "..", "..", "templates", ".claude"]

/-- The path of `p` relative to `src` (assuming `src` is a prefix of `p`). -/
def relUnder (src p : Path) : Path := p.drop src.length

/-- All entries of the filesystem lying at or below `src`. -/
def FS.subtree (fs : FS) (src : Path) : List (Path × Entry) :=
  fs.entries.filter (fun e => decide (src <+: e.1))

/-- Re-root a list of entries from under `src` to under `dst`. -/
def retargetAll (src dst : Path) (l : List (Path × Entry)) : List (Path × Entry) :=
  l.map (fun e => (dst ++ relUnder src e.1, e.2))

/-- Write a batch of entries on top of a filesystem (new bindings shadow
old ones). -/
def FS.overlay (fs : FS) (news : List (Path × Entry)) : FS :=
  ⟨news ++ fs.entries⟩

/-- Model of fs-extra `copy(src, dst)`: recursively copies every entry at
or below `src` to the corresponding path below `dst`, byte for byte.
`fault = some k` injects an I/O failure (permission denied, disk full)
after `k` entries were written; a missing source is an error with nothing
written.  Returns the resulting filesystem and a success flag. -/
def fsCopy (fs : FS) (src dst : Path) (fault : Option Nat) : FS × Bool :=
  if fs.pathExists src then
    match fault with
    | none => (fs.overlay (retargetAll src dst (fs.subtree src)), true)
    | some k => (fs.overlay ((retargetAll src dst (fs.subtree src)).take k), false)
  else (fs, false)

/-- Output channel of a console call: `console.log` or `console.error`. -/
inductive Chan
  | stdout
  | stderr
  deriving DecidableEq

/-- One message per console call in the `init` routine, in source order.
`copying` carries the template path interpolated into the message. -/
inductive Msg
  | banner
  | toolkit
  | alreadyExists
  | removeHint
  | copying : Path → Msg
  | successCreated
  | resourcesHeader
  | resSkills
  | resArchitecture
  | resSecurity
  | resTesting
  | skillsHeader
  | coreGenHeader
  | skGenerateModule
  | skGenerateField
  | skAddField
  | advancedHeader
  | skAddExport
  | skAddFilter
  | skAddI18n
  | skAddPagination
  | qualityHeader
  | skValidate
  | skAuditSecurity
  | skSetup
  | seeAllSkills
  | nextStepsHeader
  | stepReadme
  | stepRules
  | stepTry
  | stepStart
  | errorInit
  | troubleshootingHeader
  | tipPermissions
  | tipInstalled
  | tipElevated
  deriving DecidableEq

/-- The two banner lines printed before the try block. -/
def bannerMsgs : List (Chan × Msg) :=
  [(Chan.stdout, Msg.banner), (Chan.stdout, Msg.toolkit)]

/-- The two warning lines of the already-exists branch (both on stdout,
via `console.log`). -/
def skipMsgs : List (Chan × Msg) :=
  [(Chan.stdout, Msg.alreadyExists), (Chan.stdout, Msg.removeHint)]

/-- The success report printed after `fs.copy` resolves, in source order. -/
def successMsgs : List (Chan × Msg) :=
  [(Chan.stdout, Msg.successCreated),
   (Chan.stdout, Msg.resourcesHeader),
   (Chan.stdout, Msg.resSkills),
   (Chan.stdout, Msg.resArchitecture),
   (Chan.stdout, Msg.resSecurity),
   (Chan.stdout, Msg.resTesting),
   (Chan.stdout, Msg.skillsHeader),
   (Chan.stdout, Msg.coreGenHeader),
   (Chan.stdout, Msg.skGenerateModule),
   (Chan.stdout, Msg.skGenerateField),
   (Chan.stdout, Msg.skAddField),
   (Chan.stdout, Msg.advancedHeader),
   (Chan.stdout, Msg.skAddExport),
   (Chan.stdout, Msg.skAddFilter),
   (Chan.stdout, Msg.skAddI18n),
   (Chan.stdout, Msg.skAddPagination),
   (Chan.stdout, Msg.qualityHeader),
   (Chan.stdout, Msg.skValidate),
   (Chan.stdout, Msg.skAuditSecurity),
   (Chan.stdout, Msg.skSetup),
   (Chan.stdout, Msg.seeAllSkills),
   (Chan.stdout, Msg.nextStepsHeader),
   (Chan.stdout, Msg.stepReadme),
   (Chan.stdout, Msg.stepRules),
   (Chan.stdout, Msg.stepTry),
   (Chan.stdout, Msg.stepStart)]

/-- The catch-block error report (all on stderr, via `console.error`). -/
def errorMsgs : List (Chan × Msg) :=
  [(Chan.stderr, Msg.errorInit),
   (Chan.stderr, Msg.troubleshootingHeader),
   (Chan.stderr, Msg.tipPermissions),
   (Chan.stderr, Msg.tipInstalled),
   (Chan.stderr, Msg.tipElevated)]

/-- Result of one `init` invocation: the resulting filesystem, the console
output in order, and the process exit code. -/
structure InitResult where
  fs : FS
  output : List (Chan × Msg)
  exitCode : Nat
  deriving DecidableEq

/-- The `init` routine of `src/commands/init.ts`, line by line:
compute `targetDir` and `templateDir`; print the banner; if the target
exists, print the warning and return (exit 0); otherwise print the copying
line, run the copy, and either print the success report (exit 0) or, on a
copy error, print the error block and `process.exit(1)`. -/
def init (cwd dirname : Path) (fs : FS) (fault : Option Nat) : InitResult :=
  let target := targetDir cwd
  let template := templateDir dirname
  if fs.pathExists target then
    { fs := fs, output := bannerMsgs ++ skipMsgs, exitCode := 0 }
  else
    match fsCopy fs template target fault with
    | (fs2, true) =>
      { fs := fs2
        output := bannerMsgs ++ [(Chan.stdout, Msg.copying template)] ++ successMsgs
        exitCode := 0 }
    | (fs2, false) =>
      { fs := fs2
        output := bannerMsgs ++ [(Chan.stdout, Msg.copying template)] ++ errorMsgs
        exitCode := 1 }

/-- The commander front end of `src/bin/gqlify.ts`: exactly one registered
subcommand, named `init`, dispatching to the `init` routine; any other
command name is not registered. -/
def dispatch (cmd : String) : Option (Path → Path → FS → Option Nat → InitResult) :=
  if cmd = "init" then some init else none

/-- The skip branch of `init`, as a standalone result. -/
def skipResult (fs : FS) : InitResult :=
  { fs := fs, output := bannerMsgs ++ skipMsgs, exitCode := 0 }

/-- The copy-then-report branch of `init`, as a standalone result. -/
def copyResult (cwd dirname : Path) (fs : FS) (fault : Option Nat) : InitResult :=
  match fsCopy fs (templateDir dirname) (targetDir cwd) fault with
  | (fs2, true) =>
    { fs := fs2
      output := bannerMsgs ++ [(Chan.stdout, Msg.copying (templateDir dirname))] ++ successMsgs
      exitCode := 0 }
  | (fs2, false) =>
    { fs := fs2
      output := bannerMsgs ++ [(Chan.stdout, Msg.copying (templateDir dirname))] ++ errorMsgs
      exitCode := 1 }

/-! ### Basic lemmas about the filesystem model -/

/-- A path exists exactly when some stored binding has it as its key. -/
theorem pathExists_iff {fs : FS} {p : Path} :
    fs.pathExists p = true ↔ ∃ x ∈ fs.entries, x.1 = p := by
  unfold FS.pathExists FS.get
  rw [Option.isSome_map', List.find?_isSome]
  constructor
  · rintro ⟨x, hx, hp⟩
    exact ⟨x, hx, by simpa using hp⟩
  · rintro ⟨x, hx, hp⟩
    exact ⟨x, hx, by simpa using hp⟩

/-- `l₁ <+: l₁ ++ l₂`, stated locally. -/
theorem isPre_append (l₁ l₂ : Path) : l₁ <+: l₁ ++ l₂ := ⟨l₂, rfl⟩

/-- In a well-formed filesystem, the existence of a path implies the
existence of each of its nonempty prefixes. -/
theorem wf_closure {fs : FS} (hwf : fs.wf = true) {p q : Path}
    (hp : fs.pathExists p = true) (hq : q <+: p) (hne : q ≠ []) :
    fs.pathExists q = true := by
  obtain ⟨x, hx, hxp⟩ := pathExists_iff.mp hp
  obtain ⟨t, ht⟩ := hq
  have hlen : 1 ≤ q.length := by
    cases q with
    | nil => exact absurd rfl hne
    | cons a l => simp
  have hql : q.length ≤ p.length := by
    rw [← ht, List.length_append]; exact Nat.le_add_right _ _
  unfold FS.wf at hwf
  rw [List.all_eq_true] at hwf
  have h1 := hwf x hx
  simp only [List.all_eq_true, List.mem_range] at h1
  have h2 := h1 (q.length - 1) (by rw [hxp]; omega)
  rw [hxp, Nat.sub_add_cancel hlen] at h2
  have h3 : p.take q.length = q := by
    rw [← ht]; exact List.take_left' rfl
  rwa [h3] at h2

/-- `find?` only depends on the predicate's values on the list's members. -/
theorem find?_congrOn {α : Type} {p q : α → Bool} {l : List α}
    (h : ∀ x ∈ l, p x = q x) : l.find? p = l.find? q := by
  induction l with
  | nil => rfl
  | cons x xs ih =>
    have hx := h x (List.mem_cons_self x xs)
    rw [List.find?_cons, List.find?_cons, hx]
    cases q x with
    | true => rfl
    | false => exact ih (fun y hy => h y (List.mem_cons_of_mem x hy))

/-- Restricting to the subtree under `src` does not change lookups of keys
that lie under `src`. -/
theorem subtree_find?_key (fs : FS) (src rel : Path) :
    (fs.subtree src).find? (fun e => decide (e.1 = src ++ rel)) =
      fs.entries.find? (fun e => decide (e.1 = src ++ rel)) := by
  unfold FS.subtree
  rw [List.find?_filter]
  apply find?_congrOn
  intro x _
  by_cases h : x.1 = src ++ rel
  · simp [h, isPre_append]
  · simp [h]

/-- Looking up a retargeted key in the retargeted subtree is looking up the
original key in the subtree. -/
theorem retarget_find? (fs : FS) (src dst rel : Path) :
    (retargetAll src dst (fs.subtree src)).find? (fun e => decide (e.1 = dst ++ rel)) =
      ((fs.subtree src).find? (fun e => decide (e.1 = src ++ rel))).map
        (fun e => (dst ++ relUnder src e.1, e.2)) := by
  unfold retargetAll
  rw [List.find?_map]
  congr 1
  apply find?_congrOn
  intro x hx
  have hpre : src <+: x.1 := by
    have h := List.mem_filter.mp hx
    simpa using h.2
  obtain ⟨u, hu⟩ := hpre
  show decide ((dst ++ relUnder src x.1) = dst ++ rel) = decide (x.1 = src ++ rel)
  rw [← hu]
  unfold relUnder
  rw [List.drop_left]
  simp

/-- After a successful copy, the entry at `dst ++ rel` is exactly the
original entry at `src ++ rel`, provided the destination did not exist in
the well-formed original filesystem. -/
theorem copySuccess_get_target {fs : FS} {src dst : Path} (hwf : fs.wf = true)
    (hdst : fs.pathExists dst = false) (hdne : dst ≠ []) (rel : Path) :
    (fs.overlay (retargetAll src dst (fs.subtree src))).get (dst ++ rel) =
      fs.get (src ++ rel) := by
  have hB : fs.entries.find? (fun e => decide (e.1 = dst ++ rel)) = none := by
    apply List.find?_eq_none.mpr
    intro x hx
    simp only [decide_eq_true_eq]
    intro hkey
    have hex : fs.pathExists (dst ++ rel) = true := pathExists_iff.mpr ⟨x, hx, hkey⟩
    have := wf_closure hwf hex (isPre_append dst rel) hdne
    rw [hdst] at this
    exact Bool.noConfusion this
  show ((retargetAll src dst (fs.subtree src) ++ fs.entries).find?
      (fun e => decide (e.1 = dst ++ rel))).map (fun e => e.2) = _
  rw [List.find?_append, retarget_find?, subtree_find?_key, hB]
  cases h : fs.entries.find? (fun e => decide (e.1 = src ++ rel)) with
  | none => simp [FS.get, h]
  | some x => simp [FS.get, h]

/-- Every key written by `retargetAll src dst` lies under `dst`. -/
theorem retargetAll_keys (src dst : Path) (l : List (Path × Entry)) :
    ∀ x ∈ retargetAll src dst l, dst <+: x.1 := by
  intro x hx
  unfold retargetAll at hx
  obtain ⟨y, _, hy⟩ := List.mem_map.mp hx
  rw [← hy]
  exact isPre_append dst (relUnder src y.1)

/-- Writing a batch whose keys all lie under `dst` does not change lookups
outside `dst`. -/
theorem overlay_get_untouched {fs : FS} {dst : Path} {news : List (Path × Entry)}
    (hkeys : ∀ x ∈ news, dst <+: x.1) {p : Path} (hp : ¬ dst <+: p) :
    (fs.overlay news).get p = fs.get p := by
  have hn : news.find? (fun e => decide (e.1 = p)) = none := by
    apply List.find?_eq_none.mpr
    intro x hx
    simp only [decide_eq_true_eq]
    intro hkey
    exact hp (hkey ▸ hkeys x hx)
  show ((news ++ fs.entries).find? (fun e => decide (e.1 = p))).map (fun e => e.2) = _
  rw [List.find?_append, hn]
  rfl

/-- A successful copy creates the destination root. -/
theorem copy_success_creates_dst {fs : FS} {src dst : Path} {fault : Option Nat}
    {fs2 : FS} (h : fsCopy fs src dst fault = (fs2, true)) :
    fs2.pathExists dst = true := by
  unfold fsCopy at h
  by_cases hsrc : fs.pathExists src = true
  · rw [if_pos hsrc] at h
    cases fault with
    | none =>
      have hfs2 : fs2 = fs.overlay (retargetAll src dst (fs.subtree src)) := by
        have := congrArg Prod.fst h
        exact this.symm
      obtain ⟨x, hx, hkey⟩ := pathExists_iff.mp hsrc
      apply pathExists_iff.mpr
      refine ⟨(dst ++ relUnder src x.1, x.2), ?_, ?_⟩
      · rw [hfs2]
        apply List.mem_append_left
        unfold retargetAll
        exact List.mem_map.mpr ⟨x, List.mem_filter.mpr ⟨hx, by simp [hkey]⟩, rfl⟩
      · simp [relUnder, hkey, List.drop_length]
    | some k =>
      exact absurd (congrArg Prod.snd h) (by simp)
  · rw [if_neg hsrc] at h
    exact absurd (congrArg Prod.snd h) (by simp)

/-- A failed copy is reported as failed: the success flag of `fsCopy` with
an injected fault is `false`. -/
theorem fsCopy_fault_fails (fs : FS) (src dst : Path) (k : Nat) :
    (fsCopy fs src dst (some k)).2 = false := by
  unfold fsCopy
  by_cases hsrc : fs.pathExists src = true
  · rw [if_pos hsrc]
  · rw [if_neg hsrc]

/-! ### Concrete instances for witnesses

`exDirname` is the installed location `dist/src/commands` of the compiled
`init.js` under a package root `g`; resolving `../../../templates/.claude`
from it yields `g/templates/.claude`.  `exFs1` is a well-formed filesystem
holding a small template tree (as in the spec's concrete scenario: a
`README.md` and a `skills/foo/SKILL.md`) and an empty working directory
`p`.  `exFs2` has an already-initialized working directory and no template
tree at all; `exFs3` has a regular *file* named `.claude` in the working
directory. -/

def exDirname : Path := ["g", "dist", "src", "commands"]

def exFs1 : FS :=
  ⟨[(["g"], Entry.dir),
    (["g", "templates"], Entry.dir),
    (["g", "templates", ".claude"], Entry.dir),
    (["g", "templates", ".claude", "README.md"], Entry.file [72, 105]),
    (["g", "templates", ".claude", "skills"], Entry.dir),
    (["g", "templates", ".claude", "skills", "foo"], Entry.dir),
    (["g", "templates", ".claude", "skills", "foo", "SKILL.md"], Entry.file [83, 75]),
    (["p"], Entry.dir)]⟩

def exFs2 : FS :=
  ⟨[(["p"], Entry.dir), (["p", ".claude"], Entry.dir)]⟩

def exFs3 : FS :=
  ⟨[(["p"], Entry.dir), (["p", ".claude"], Entry.file [])]⟩

def exFs1b : FS :=
  ⟨exFs1.entries ++ [(["q"], Entry.dir)]⟩

/-! ### Claim theorems -/

/-- C1: a run of `init` in a working directory with no `.claude` entry,
with no I/O fault, exits 0 and produces a destination tree whose entry at
every relative path equals — byte for byte, with nothing dropped, nothing
invented, and no transformation — the template tree's entry at the same
relative path. -/
theorem C1_fresh_init_installs_template_exactly (cwd dirname : Path) (fs : FS)
    (hwf : fs.wf = true)
    (hno : fs.pathExists (targetDir cwd) = false)
    (hsrc : fs.pathExists (templateDir dirname) = true) :
    (init cwd dirname fs none).exitCode = 0 ∧
    ∀ rel : Path,
      (init cwd dirname fs none).fs.get (targetDir cwd ++ rel) =
        fs.get (templateDir dirname ++ rel) := by
  have hdne : targetDir cwd ≠ [] := by
    intro h
    have := congrArg List.length h
    simp [targetDir] at this
  have hcopy : fsCopy fs (templateDir dirname) (targetDir cwd) none =
      (fs.overlay (retargetAll (templateDir dirname) (targetDir cwd)
        (fs.subtree (templateDir dirname))), true) := by
    unfold fsCopy
    rw [if_pos hsrc]
  constructor
  · simp [init, hno, hcopy]
  · intro rel
    simp only [init, hno, Bool.false_eq_true, if_false, hcopy]
    exact copySuccess_get_target hwf hno hdne rel

/-- Witness for C1 on `exFs1`: after the run, the installed
`p/.claude/README.md` holds exactly the template's bytes. -/
theorem C1_witness :
    (init ["p"] exDirname exFs1 none).fs.get (targetDir ["p"] ++ ["README.md"]) =
      exFs1.get (templateDir exDirname ++ ["README.md"]) :=
  (C1_fresh_init_installs_template_exactly ["p"] exDirname exFs1
    (by decide) (by decide) (by decide)).2 ["README.md"]

/-- C2: when the destination `.claude` exists, `init` performs no
filesystem write (the resulting filesystem is the input one), prints the
two warning lines (and no error block: the output is exactly the banner
followed by the warning), and exits 0; consequently a second consecutive
invocation after a successful first run performs no writes and leaves the
installed tree unchanged. -/
theorem C2_existing_destination_skips_and_second_run_is_noop
    (cwd dirname : Path) (fs : FS) (fault fault2 : Option Nat) :
    (fs.pathExists (targetDir cwd) = true →
      (init cwd dirname fs fault).fs = fs ∧
      (init cwd dirname fs fault).exitCode = 0 ∧
      (init cwd dirname fs fault).output = bannerMsgs ++ skipMsgs) ∧
    ((init cwd dirname fs fault).exitCode = 0 →
      fs.pathExists (targetDir cwd) = false →
      (init cwd dirname ((init cwd dirname fs fault).fs) fault2).fs =
        (init cwd dirname fs fault).fs ∧
      (init cwd dirname ((init cwd dirname fs fault).fs) fault2).exitCode = 0 ∧
      (init cwd dirname ((init cwd dirname fs fault).fs) fault2).output =
        bannerMsgs ++ skipMsgs) := by
  constructor
  · intro hex
    refine ⟨?_, ?_, ?_⟩ <;> simp [init, hex]
  · intro hex0 hno
    rcases hc : fsCopy fs (templateDir dirname) (targetDir cwd) fault with ⟨fs1, b⟩
    cases b with
    | false =>
      exfalso
      have h1 : (init cwd dirname fs fault).exitCode = 1 := by
        simp [init, hno, hc]
      rw [hex0] at h1
      exact Nat.noConfusion h1
    | true =>
      have hfs1 : (init cwd dirname fs fault).fs = fs1 := by
        simp [init, hno, hc]
      have hex1 : fs1.pathExists (targetDir cwd) = true :=
        copy_success_creates_dst hc
      rw [hfs1]
      refine ⟨?_, ?_, ?_⟩ <;> simp [init, hex1]

/-- Witness for C2: the skip branch on `exFs2` (which already holds
`p/.claude`), and the second run after a successful first run on `exFs1`. -/
theorem C2_witness :
    ((init ["p"] exDirname exFs2 none).fs = exFs2 ∧
     (init ["p"] exDirname exFs2 none).exitCode = 0 ∧
     (init ["p"] exDirname exFs2 none).output = bannerMsgs ++ skipMsgs) ∧
    ((init ["p"] exDirname ((init ["p"] exDirname exFs1 none).fs) none).fs =
       (init ["p"] exDirname exFs1 none).fs ∧
     (init ["p"] exDirname ((init ["p"] exDirname exFs1 none).fs) none).exitCode = 0 ∧
     (init ["p"] exDirname ((init ["p"] exDirname exFs1 none).fs) none).output =
       bannerMsgs ++ skipMsgs) :=
  ⟨(C2_existing_destination_skips_and_second_run_is_noop
      ["p"] exDirname exFs2 none none).1 (by decide),
   (C2_existing_destination_skips_and_second_run_is_noop
      ["p"] exDirname exFs1 none none).2 (by decide) (by decide)⟩

/-- C3: when a filesystem error occurs during the copy, `init` prints the
human-readable error block to stderr and exits with a non-zero code; the
resulting filesystem is exactly what the single failed copy attempt left
behind (no retry, no rollback of partially copied output). -/
theorem C3_copy_error_reports_and_exits_nonzero
    (cwd dirname : Path) (fs : FS) (fault : Option Nat)
    (hno : fs.pathExists (targetDir cwd) = false)
    (hfail : (fsCopy fs (templateDir dirname) (targetDir cwd) fault).2 = false) :
    (init cwd dirname fs fault).exitCode ≠ 0 ∧
    (Chan.stderr, Msg.errorInit) ∈ (init cwd dirname fs fault).output ∧
    (init cwd dirname fs fault).fs =
      (fsCopy fs (templateDir dirname) (targetDir cwd) fault).1 := by
  rcases hc : fsCopy fs (templateDir dirname) (targetDir cwd) fault with ⟨fs1, b⟩
  rw [hc] at hfail
  simp only at hfail
  subst hfail
  refine ⟨?_, ?_, ?_⟩ <;> simp [init, hno, hc, bannerMsgs, errorMsgs]

/-- Witness for C3: a fault injected after one written entry on `exFs1`. -/
theorem C3_witness :
    (init ["p"] exDirname exFs1 (some 1)).exitCode ≠ 0 ∧
    (Chan.stderr, Msg.errorInit) ∈ (init ["p"] exDirname exFs1 (some 1)).output ∧
    (init ["p"] exDirname exFs1 (some 1)).fs =
      (fsCopy exFs1 (templateDir exDirname) (targetDir ["p"]) (some 1)).1 :=
  C3_copy_error_reports_and_exits_nonzero ["p"] exDirname exFs1 (some 1)
    (by decide) (by decide)

/-- C4: the success report is printed exactly when the copy branch was
taken and the copy completed without error; in particular a run without
write permission (an injected fault) exits 1 and never claims success. -/
theorem C4_success_report_only_after_successful_copy
    (cwd dirname : Path) (fs : FS) (fault : Option Nat) :
    ((Chan.stdout, Msg.successCreated) ∈ (init cwd dirname fs fault).output ↔
      (fs.pathExists (targetDir cwd) = false ∧
        (fsCopy fs (templateDir dirname) (targetDir cwd) fault).2 = true)) ∧
    (∀ k : Nat, fault = some k → fs.pathExists (targetDir cwd) = false →
      (init cwd dirname fs fault).exitCode = 1 ∧
      (Chan.stdout, Msg.successCreated) ∉ (init cwd dirname fs fault).output) := by
  constructor
  · by_cases hex : fs.pathExists (targetDir cwd) = true
    · simp [init, hex, bannerMsgs, skipMsgs]
    · have hno : fs.pathExists (targetDir cwd) = false := by
        rwa [Bool.not_eq_true] at hex
      rcases hc : fsCopy fs (templateDir dirname) (targetDir cwd) fault with ⟨fs1, b⟩
      cases b <;> simp [init, hno, hc, bannerMsgs, successMsgs, errorMsgs]
  · rintro k rfl hno
    have hf := fsCopy_fault_fails fs (templateDir dirname) (targetDir cwd) k
    rcases hc : fsCopy fs (templateDir dirname) (targetDir cwd) (some k) with ⟨fs1, b⟩
    rw [hc] at hf
    simp only at hf
    subst hf
    constructor <;> simp [init, hno, hc, bannerMsgs, errorMsgs]

/-- Witness for C4: a fault before any entry is written on `exFs1`. -/
theorem C4_witness :
    (init ["p"] exDirname exFs1 (some 0)).exitCode = 1 ∧
    (Chan.stdout, Msg.successCreated) ∉ (init ["p"] exDirname exFs1 (some 0)).output :=
  (C4_success_report_only_after_successful_copy ["p"] exDirname exFs1 (some 0)).2
    0 rfl (by decide)

/-- Writing no entries is a no-op. -/
theorem overlay_nil (fs : FS) : fs.overlay [] = fs := rfl

/-- The target path `<cwd>/.claude` is never the empty path. -/
theorem targetDir_ne_nil (cwd : Path) : targetDir cwd ≠ [] := by
  intro h
  have := congrArg List.length h
  simp [targetDir] at this

/-- Whether the source root exists is determined by its subtree. -/
theorem pathExists_of_subtree_eq {fs fs2 : FS} {src : Path}
    (h : fs.subtree src = fs2.subtree src) :
    fs.pathExists src = fs2.pathExists src := by
  have h1 := subtree_find?_key fs src []
  have h2 := subtree_find?_key fs2 src []
  rw [List.append_nil] at h1 h2
  unfold FS.pathExists FS.get
  rw [Option.isSome_map', Option.isSome_map', ← h1, ← h2, h]

/-- The copy writes a batch of entries, all under `dst`, on top of the
input filesystem; the batch and the success flag are determined by the
subtree under `src` alone. -/
theorem fsCopy_fst_overlay (fs : FS) (src dst : Path) (fault : Option Nat) :
    ∃ news : List (Path × Entry),
      (fsCopy fs src dst fault).1 = fs.overlay news ∧
      (∀ x ∈ news, dst <+: x.1) ∧
      ∀ fs2 : FS, fs.subtree src = fs2.subtree src →
        (fsCopy fs2 src dst fault).1 = fs2.overlay news ∧
        (fsCopy fs2 src dst fault).2 = (fsCopy fs src dst fault).2 := by
  by_cases hsrc : fs.pathExists src = true
  · cases fault with
    | none =>
      refine ⟨retargetAll src dst (fs.subtree src), ?_, retargetAll_keys src dst _, ?_⟩
      · simp [fsCopy, hsrc]
      · intro fs2 hsub
        have hsrc2 : fs2.pathExists src = true := by
          rw [← pathExists_of_subtree_eq hsub]; exact hsrc
        constructor <;> simp [fsCopy, hsrc, hsrc2, hsub]
    | some k =>
      refine ⟨(retargetAll src dst (fs.subtree src)).take k, ?_, ?_, ?_⟩
      · simp [fsCopy, hsrc]
      · intro x hx
        exact retargetAll_keys src dst _ x (List.mem_of_mem_take hx)
      · intro fs2 hsub
        have hsrc2 : fs2.pathExists src = true := by
          rw [← pathExists_of_subtree_eq hsub]; exact hsrc
        constructor <;> simp [fsCopy, hsrc, hsrc2, hsub]
  · have hno : fs.pathExists src = false := by rwa [Bool.not_eq_true] at hsrc
    refine ⟨[], ?_, ?_, ?_⟩
    · simp [fsCopy, hno, overlay_nil]
    · intro x hx
      cases hx
    · intro fs2 hsub
      have hno2 : fs2.pathExists src = false := by
        rw [← pathExists_of_subtree_eq hsub]; exact hno
      constructor <;> simp [fsCopy, hno, hno2, overlay_nil]

/-- C5: the template is read from the fixed relative location
`../../../templates/.claude` next to the installed program; all writes land
under `<cwd>/.claude`; and the run's observable behaviour depends on the
filesystem only through the existence of `<cwd>/.claude` and the template
subtree — the model has no environment-variable, flag or network input at
all, so nothing else can influence which paths are read or written. -/
theorem C5_reads_and_writes_confined (cwd dirname : Path) (fs : FS)
    (fault : Option Nat) :
    (templateDir dirname =
      dirname.dropLast.dropLast.dropLast ++ ["templates", ".claude"]) ∧
    (∀ p : Path, ¬ (targetDir cwd <+: p) →
      (init cwd dirname fs fault).fs.get p = fs.get p) ∧
    (∀ fs2 : FS,
      fs.pathExists (targetDir cwd) = fs2.pathExists (targetDir cwd) →
      fs.subtree (templateDir dirname) = fs2.subtree (templateDir dirname) →
      (init cwd dirname fs fault).output = (init cwd dirname fs2 fault).output ∧
      (init cwd dirname fs fault).exitCode = (init cwd dirname fs2 fault).exitCode ∧
      ∃ news : List (Path × Entry),
        (init cwd dirname fs fault).fs = fs.overlay news ∧
        (init cwd dirname fs2 fault).fs = fs2.overlay news) := by
  refine ⟨?_, ?_, ?_⟩
  · simp [templateDir, resolvePath]
  · intro p hp
    by_cases hex : fs.pathExists (targetDir cwd) = true
    · simp [init, hex]
    · have hno : fs.pathExists (targetDir cwd) = false := by
        rwa [Bool.not_eq_true] at hex
      obtain ⟨news, h1, hkeys, -⟩ :=
        fsCopy_fst_overlay fs (templateDir dirname) (targetDir cwd) fault
      rcases hc : fsCopy fs (templateDir dirname) (targetDir cwd) fault with ⟨fs1, b⟩
      rw [hc] at h1
      simp only at h1
      have hfs : (init cwd dirname fs fault).fs = fs1 := by
        cases b <;> simp [init, hno, hc]
      rw [hfs, h1]
      exact overlay_get_untouched hkeys hp
  · intro fs2 hexeq hsub
    by_cases hex : fs.pathExists (targetDir cwd) = true
    · have hex2 : fs2.pathExists (targetDir cwd) = true := by
        rw [← hexeq]; exact hex
      refine ⟨by simp [init, hex, hex2], by simp [init, hex, hex2], [], ?_, ?_⟩
      · simp [init, hex, overlay_nil]
      · simp [init, hex2, overlay_nil]
    · have hno : fs.pathExists (targetDir cwd) = false := by
        rwa [Bool.not_eq_true] at hex
      have hno2 : fs2.pathExists (targetDir cwd) = false := by
        rw [← hexeq]; exact hno
      obtain ⟨news, h1, hkeys, h3⟩ :=
        fsCopy_fst_overlay fs (templateDir dirname) (targetDir cwd) fault
      obtain ⟨h4, h5⟩ := h3 fs2 hsub
      rcases hc : fsCopy fs (templateDir dirname) (targetDir cwd) fault with ⟨fs1, b⟩
      rcases hc2 : fsCopy fs2 (templateDir dirname) (targetDir cwd) fault with ⟨fs2b, b2⟩
      rw [hc] at h1 h5
      rw [hc2] at h4 h5
      simp only at h1 h4 h5
      subst h5
      cases b2 <;>
        exact ⟨by simp [init, hno, hno2, hc, hc2],
               by simp [init, hno, hno2, hc, hc2],
               news,
               by simp [init, hno, hc, h1],
               by simp [init, hno2, hc2, h4]⟩

/-- Witness for C5: adding an entry `q` outside the template subtree to
`exFs1` changes neither the output nor the exit code. -/
theorem C5_witness :
    (init ["p"] exDirname exFs1 none).output =
      (init ["p"] exDirname exFs1b none).output ∧
    (init ["p"] exDirname exFs1 none).exitCode =
      (init ["p"] exDirname exFs1b none).exitCode ∧
    ∃ news : List (Path × Entry),
      (init ["p"] exDirname exFs1 none).fs = exFs1.overlay news ∧
      (init ["p"] exDirname exFs1b none).fs = exFs1b.overlay news :=
  (C5_reads_and_writes_confined ["p"] exDirname exFs1 none).2.2 exFs1b
    (by decide) (by decide)

/-- C6: in every run — skip branch or copy branch — no entry that existed
before the run is overwritten, modified or deleted: lookups of all
pre-existing paths are unchanged in the resulting filesystem. -/
theorem C6_preexisting_entries_never_modified (cwd dirname : Path) (fs : FS)
    (fault : Option Nat) (hwf : fs.wf = true) :
    ∀ p : Path, (fs.get p).isSome = true →
      (init cwd dirname fs fault).fs.get p = fs.get p := by
  intro p hp
  by_cases hex : fs.pathExists (targetDir cwd) = true
  · simp [init, hex]
  · have hno : fs.pathExists (targetDir cwd) = false := by
      rwa [Bool.not_eq_true] at hex
    obtain ⟨news, h1, hkeys, -⟩ :=
      fsCopy_fst_overlay fs (templateDir dirname) (targetDir cwd) fault
    rcases hc : fsCopy fs (templateDir dirname) (targetDir cwd) fault with ⟨fs1, b⟩
    rw [hc] at h1
    simp only at h1
    have hfs : (init cwd dirname fs fault).fs = fs1 := by
      cases b <;> simp [init, hno, hc]
    rw [hfs, h1]
    apply overlay_get_untouched hkeys
    intro hpre
    have hup : fs.pathExists p = true := hp
    have := wf_closure hwf hup hpre (targetDir_ne_nil cwd)
    rw [hno] at this
    exact Bool.noConfusion this

/-- Witness for C6: the pre-existing working directory entry `p` of
`exFs1` is untouched by a successful run. -/
theorem C6_witness :
    (init ["p"] exDirname exFs1 none).fs.get ["p"] = exFs1.get ["p"] :=
  C6_preexisting_entries_never_modified ["p"] exDirname exFs1 none
    (by decide) ["p"] (by decide)

/-- C7: the CLI registers exactly the one subcommand `init`, dispatching
to the `init` routine and nothing else; and the routine is the linear
sequence existence-check, then copy-or-skip, then report: every run is
exactly the skip branch or exactly the copy branch. -/
theorem C7_single_subcommand_linear_flow :
    (∀ s : String, dispatch s = if s = "init" then some init else none) ∧
    (∀ (cwd dirname : Path) (fs : FS) (fault : Option Nat),
      init cwd dirname fs fault =
        if fs.pathExists (targetDir cwd) then skipResult fs
        else copyResult cwd dirname fs fault) := by
  constructor
  · intro s
    rfl
  · intro cwd dirname fs fault
    by_cases hex : fs.pathExists (targetDir cwd) = true
    · simp [init, skipResult, hex]
    · have hno : fs.pathExists (targetDir cwd) = false := by
        rwa [Bool.not_eq_true] at hex
      rcases hc : fsCopy fs (templateDir dirname) (targetDir cwd) fault with ⟨fs1, b⟩
      cases b <;> simp [init, copyResult, hno, hc]

/-- C8: the existence guard uses `pathExists`, which is true for any entry
kind: whatever entry — regular file, directory or symlink — sits at
`<cwd>/.claude`, `init` takes the skip branch, prints the warning, exits 0
and performs no write. -/
theorem C8_guard_fires_on_any_entry_kind (cwd dirname : Path) (fs : FS)
    (fault : Option Nat) (e : Entry) (h : fs.get (targetDir cwd) = some e) :
    (init cwd dirname fs fault).fs = fs ∧
    (init cwd dirname fs fault).exitCode = 0 ∧
    (init cwd dirname fs fault).output = bannerMsgs ++ skipMsgs := by
  have hex : fs.pathExists (targetDir cwd) = true := by
    simp [FS.pathExists, h]
  refine ⟨?_, ?_, ?_⟩ <;> simp [init, hex]

/-- Witness for C8: a regular *file* named `.claude` triggers the skip
branch. -/
theorem C8_witness :
    (init ["p"] exDirname exFs3 none).fs = exFs3 ∧
    (init ["p"] exDirname exFs3 none).exitCode = 0 ∧
    (init ["p"] exDirname exFs3 none).output = bannerMsgs ++ skipMsgs :=
  C8_guard_fires_on_any_entry_kind ["p"] exDirname exFs3 none
    (Entry.file []) (by decide)

/-- C9: when the destination exists, the run exits 0 with no write even if
the bundled template directory is missing, and the result is independent
of any copy fault — the template path is only touched in the copy branch. -/
theorem C9_skip_branch_never_touches_template (cwd dirname : Path) (fs : FS)
    (fault fault2 : Option Nat)
    (hex : fs.pathExists (targetDir cwd) = true)
    (_hmiss : fs.pathExists (templateDir dirname) = false) :
    (init cwd dirname fs fault).exitCode = 0 ∧
    (init cwd dirname fs fault).fs = fs ∧
    init cwd dirname fs fault = init cwd dirname fs fault2 := by
  refine ⟨?_, ?_, ?_⟩ <;> simp [init, hex]

/-- Witness for C9: `exFs2` has `p/.claude` but no template tree at all;
the run still exits 0, unchanged, for an injected fault as much as for
none. -/
theorem C9_witness :
    (init ["p"] exDirname exFs2 (some 0)).exitCode = 0 ∧
    (init ["p"] exDirname exFs2 (some 0)).fs = exFs2 ∧
    init ["p"] exDirname exFs2 (some 0) = init ["p"] exDirname exFs2 none :=
  C9_skip_branch_never_touches_template ["p"] exDirname exFs2 (some 0) none
    (by decide) (by decide)

/-- C10: the exit code of every run is 0 or 1, and it is 1 exactly when
the copy branch was taken and the copy failed — the catch block's
`process.exit(1)` is the only non-zero exit path of the routine. -/
theorem C10_exit_code_is_zero_or_exactly_one (cwd dirname : Path) (fs : FS)
    (fault : Option Nat) :
    ((init cwd dirname fs fault).exitCode = 0 ∨
      (init cwd dirname fs fault).exitCode = 1) ∧
    ((init cwd dirname fs fault).exitCode = 1 ↔
      (fs.pathExists (targetDir cwd) = false ∧
        (fsCopy fs (templateDir dirname) (targetDir cwd) fault).2 = false)) := by
  by_cases hex : fs.pathExists (targetDir cwd) = true
  · constructor
    · left
      simp [init, hex]
    · simp [init, hex]
  · have hno : fs.pathExists (targetDir cwd) = false := by
      rwa [Bool.not_eq_true] at hex
    rcases hc : fsCopy fs (templateDir dirname) (targetDir cwd) fault with ⟨fs1, b⟩
    cases b with
    | true =>
      constructor
      · left
        simp [init, hno, hc]
      · simp [init, hno, hc]
    | false =>
      constructor
      · right
        simp [init, hno, hc]
      · simp [init, hno, hc]

end GQLify
